import Mathlib

/-!
# Verification of the sgit semantic-versioning helper

A shallow embedding of the version state machine and status-parsing logic of
`sgit.py` (the semantic-versioning git wrapper), together with proofs of the
specified properties.  Python strings are modelled as Lean `String`s (with
character-list reasoning via `String.data`), Python `int()` on the digit-only
strings reachable here as `parseDigits`, file-system effects as explicit
state passing (`Option String` for a file that may be absent), and
`sys.exit(1)` as an error outcome.
-/

namespace SGit

/-- The characters stripped by Python's `str.strip()` with no argument. -/
def isPySpace (c : Char) : Bool :=
  c = ' ' || c = '\t' || c = '\n' || c = '\r' || c = '\x0b' || c = '\x0c'

/-- Python `str.strip()` on a character list: drop whitespace at both ends. -/
def pyStripL (cs : List Char) : List Char :=
  ((cs.dropWhile isPySpace).reverse.dropWhile isPySpace).reverse

/-- Python `str.strip()`. -/
def pyStrip (s : String) : String :=
  String.mk (pyStripL s.data)

/-- Python `str.split(sep)` for a single-character separator, on character
lists.  `"".split(sep) = [""]`, and consecutive separators yield empty
fields, exactly as in Python. -/
def splitOnChar (sep : Char) : List Char → List (List Char)
  | [] => [[]]
  | c :: cs =>
    if c = sep then [] :: splitOnChar sep cs
    else
      match splitOnChar sep cs with
      | [] => [[c]]
      | hd :: tl => (c :: hd) :: tl

/-- Python `str.split(sep)` for a single-character separator. -/
def pySplit (s : String) (sep : Char) : List String :=
  (splitOnChar sep s.data).map String.mk

/-- Python `int()` restricted to the inputs reachable in `sgit.py`: every
string this program passes to `int()` is a pure ASCII-digit string (the
fields of a `NN.NN.NN` version, or an exclusion token pre-filtered by
`str.isdigit`).  `none` models the `ValueError` raised on any other input. -/
def parseDigits (cs : List Char) : Option Nat :=
  if cs.isEmpty then none
  else if cs.all Char.isDigit then
    some (cs.foldl (fun acc c => acc * 10 + (c.toNat - 48)) 0)
  else none

/-- Python `str.isdigit()` restricted to ASCII: nonempty and all digits. -/
def isDigitString (s : String) : Bool :=
  !s.data.isEmpty && s.data.all Char.isDigit

/-- `DEFAULT_VERSION` constant of `sgit.py` (line 31). -/
def DEFAULT_VERSION : String := "00.00.01"

/-- The character content `\d{2}\.\d{2}\.\d{2}`: two ASCII digits, a
period, two digits, a period, two digits. -/
def tripletChars (a b c d e f g h : Char) : Bool :=
  a.isDigit && b.isDigit && c = '.' && d.isDigit && e.isDigit &&
    f = '.' && g.isDigit && h.isDigit

/-- Python `re.match(r'^\d{2}\.\d{2}\.\d{2}$', s)` of `sgit.py` lines 61 and
77.  In Python the anchor `$` matches at the end of the string or just
before a single string-final newline, so the regex accepts both `NN.NN.NN`
and `NN.NN.NN` followed by exactly one `'\n'`. -/
def matchesVersionPattern (s : String) : Bool :=
  match s.data with
  | [a, b, c, d, e, f, g, h] => tripletChars a b c d e f g h
  | [a, b, c, d, e, f, g, h, n] => tripletChars a b c d e f g h && n = '\n'
  | _ => false

/-- **Specification-side** definition, following the spec's words: a string
literally of the two-digit-triplet form `NN.NN.NN` — no trailing-newline
allowance. -/
def strictTripletForm (s : String) : Bool :=
  match s.data with
  | [a, b, c, d, e, f, g, h] => tripletChars a b c d e f g h
  | _ => false

/-- Python `f"{n:02d}"` (line 116): decimal, left-padded with `0` to width 2. -/
def formatTwoDigits (n : Nat) : String :=
  if n < 10 then "0" ++ Nat.repr n else Nat.repr n

/-- The format string `f"{major:02d}.{minor:02d}.{patch:02d}"` of line 116. -/
def formatVersion (a b c : Nat) : String :=
  formatTwoDigits a ++ "." ++ formatTwoDigits b ++ "." ++ formatTwoDigits c

/-- Lines 92–95 of `sgit.py`: `parts = current_version.split('.')` followed by
`int(parts[0])`, `int(parts[1])`, `int(parts[2])`.  `none` models the
`IndexError`/`ValueError` raised on a malformed version string. -/
def parseVersion (s : String) : Option (Nat × Nat × Nat) :=
  match pySplit s '.' with
  | t0 :: t1 :: t2 :: _ =>
    match parseDigits t0.data, parseDigits t1.data, parseDigits t2.data with
    | some a, some b, some c => some (a, b, c)
    | _, _, _ => none
  | _ => none

/-- `increment_version` (lines 90–118).  The three `if` blocks run in
sequence, each updating the field values and the `incremented` list. -/
def increment_version (current_version : String)
    (major minor patch : Bool) : Option (String × List String) :=
  match parseVersion current_version with
  | none => none
  | some (major0, minor0, patch0) =>
    let major1 := if major then (major0 + 1) % 100 else major0
    let minor1 := if major then 0 else minor0
    let patch1 := if major then 0 else patch0
    let inc1 : List String := if major then ["major"] else []
    let minor2 := if minor then (minor1 + 1) % 100 else minor1
    let patch2 := if minor then 0 else patch1
    let inc2 := if minor then inc1 ++ ["minor"] else inc1
    let patch3 := if patch then (patch2 + 1) % 100 else patch2
    let inc3 := if patch then inc2 ++ ["patch"] else inc2
    some (formatVersion major1 minor2 patch3, inc3)

/-- `format_version_with_stars` (lines 120–144).  `List.getD` stands for the
Python index `parts[i]`, which cannot fail on the version strings this
program produces (always three fields). -/
def format_version_with_stars (version : String)
    (incremented : List String) : String :=
  if incremented = [] then version
  else
    let parts := pySplit version '.'
    let p0 := parts.getD 0 ""
    let p1 := parts.getD 1 ""
    let p2 := parts.getD 2 ""
    (if "major" ∈ incremented then "*" ++ p0 ++ "." else p0 ++ ".") ++
    (if "minor" ∈ incremented then "*" ++ p1 ++ "." else p1 ++ ".") ++
    (if "patch" ∈ incremented then "*" ++ p2 else p2)

/-- Result of `get_current_version` (lines 52–72): the returned version, the
version-file content after the call, and whether the invalid-format warning
was printed.  The file is modelled as its text content; the function always
leaves a file behind, so the after-state is a plain `String`. -/
structure ReadResult where
  version : String
  file_after : String
  warned : Bool
deriving DecidableEq, Repr

/-- `get_current_version` (lines 52–72).  The input is the version file's
content, or `none` when the file is absent.  If the file exists, its content
is read and stripped; a pattern match returns it with no write; otherwise
(and when the file is absent) the default version is written and returned.
The warning is printed only in the exists-but-invalid branch. -/
def get_current_version (file : Option String) : ReadResult :=
  match file with
  | some content =>
    let version := pyStrip content
    if matchesVersionPattern version then ⟨version, content, false⟩
    else ⟨DEFAULT_VERSION, DEFAULT_VERSION, true⟩
  | none => ⟨DEFAULT_VERSION, DEFAULT_VERSION, false⟩

/-- Result of `set_version` (lines 74–88): whether the call succeeded (`ok =
false` models `sys.exit(1)`), and the version-file content after the call
(`none` when the file never existed). -/
structure SetOutcome where
  ok : Bool
  file_after : Option String
deriving DecidableEq, Repr

/-- `set_version` (lines 74–88): the format check runs before the write, so a
pattern failure exits with status 1 leaving the file untouched; otherwise the
file's entire content becomes exactly the given string. -/
def set_version (version : String) (file : Option String) : SetOutcome :=
  if matchesVersionPattern version then ⟨true, some version⟩
  else ⟨false, file⟩

/-- One entry of the `files` list built by `get_changed_files`
(lines 146–177): the tuple `(filename, status_text, status_code)`. -/
structure ChangeRecord where
  filename : String
  status_text : String
  status_code : String
deriving DecidableEq, Repr

/-- The colored status label of line 164. -/
def INSERT_LABEL : String := "\x1b[92mINSERT\x1b[0m"

/-- The colored status label of line 167. -/
def DELETE_LABEL : String := "\x1b[91mDELETE\x1b[0m"

/-- The colored status label of line 170. -/
def UPDATE_LABEL : String := "\x1b[93mUPDATE\x1b[0m"

/-- The `if/elif/else` chain of lines 163–173: classify a stripped status
code into a display label. -/
def classify (status_code : String) : String :=
  if status_code = "??" then INSERT_LABEL
  else if status_code = "D" then DELETE_LABEL
  else if status_code = "M" then UPDATE_LABEL
  else "Unknown"

/-- Lines 160–175: split one status line at the two-character status-code
width (`line[:2]` and `line[2:]`), strip both parts, classify. -/
def parse_status_line (line : String) : ChangeRecord :=
  let status_code := String.mk (pyStripL (line.data.take 2))
  let filename := String.mk (pyStripL (line.data.drop 2))
  ⟨filename, classify status_code, status_code⟩

/-- `get_changed_files` (lines 146–177).  `run_command` returns
`stdout.strip()`, so the whole output is stripped first; an empty result
models the `sys.exit(0)` "No changes to commit." path (`none`); otherwise
the output is split on newlines, blank lines are skipped, and each
remaining line is parsed into a record. -/
def get_changed_files (raw_stdout : String) : Option (List ChangeRecord) :=
  let status_output := pyStrip raw_stdout
  if status_output = "" then none
  else
    some (((pySplit status_output '\n').filter
      (fun line => pyStrip line ≠ "")).map parse_status_line)

/-- Python `enumerate(xs, n)`. -/
def enumerateFrom (n : Nat) : List α → List (Nat × α)
  | [] => []
  | x :: xs => (n, x) :: enumerateFrom (n + 1) xs

/-- The exclusion-index parse of line 221:
`[int(idx.strip()) for idx in exclude_input.split(',') if idx.strip().isdigit()]`.
`none` models the `ValueError` caught at line 224 — raised only if some
`isdigit`-guarded token still fails `int()`. -/
def parse_exclude_indices (exclude_input : String) : Option (List Nat) :=
  let guarded := ((pySplit exclude_input ',').map pyStrip).filter isDigitString
  if guarded.all (fun t => (parseDigits t.data).isSome) then
    some (guarded.filterMap (fun t => parseDigits t.data))
  else none

/-- Lines 213–233 of `main`: strip the raw exclusion input; if it is empty,
keep every file; otherwise parse the exclusion indices and keep the files
whose 1-based `enumerate` position is not excluded.  The `Bool` component
records whether the `ValueError` warning `"Invalid input. Including all
files."` was printed. -/
def apply_exclusions (changed_files : List ChangeRecord)
    (raw : String) : List String × Bool :=
  let exclude_input := pyStrip raw
  if exclude_input ≠ "" then
    match parse_exclude_indices exclude_input with
    | some exclude_indices =>
      ((enumerateFrom 1 changed_files).filterMap
        (fun p => if p.1 ∈ exclude_indices then none else some p.2.filename),
        false)
    | none => (changed_files.map (fun f => f.filename), true)
  else (changed_files.map (fun f => f.filename), false)

/-- The version-handling part of `main` (lines 193–201 and 272–273), for an
invocation without `-s`: read the current version, apply the increments if
any flag is set (writing the new version back through `set_version`), and
build the commit-message label with `format_version_with_stars`.  The result
is `(version-file content after, label)`; `none` models a fatal exit
(`IndexError`/`ValueError` in `increment_version` or `sys.exit(1)` in
`set_version`). -/
def main_version_flow (argM argm argp : Bool)
    (file : Option String) : Option (String × String) :=
  let r := get_current_version file
  if argM || argm || argp then
    match increment_version r.version argM argm argp with
    | some (new_version, incremented) =>
      let w := set_version new_version (some r.file_after)
      match w.ok, w.file_after with
      | true, some after =>
        some (after, format_version_with_stars new_version incremented)
      | _, _ => none
    | none => none
  else
    some (r.file_after, format_version_with_stars r.version [])

/-- **Specification-side** definition, following the spec's words for the
Selection Filter ("returns the subset of records whose 1-based position is
not in the exclusion set"): keep the elements whose position (counting from
`pos`) is not in `ex`. -/
def retainNotExcluded (pos : Nat) (ex : List Nat) : List α → List α
  | [] => []
  | x :: xs =>
    if pos ∈ ex then retainNotExcluded (pos + 1) ex xs
    else x :: retainNotExcluded (pos + 1) ex xs

/-! ## Basic string lemmas -/

theorem data_append (s t : String) : (s ++ t).data = s.data ++ t.data := rfl

theorem mk_data (s : String) : String.mk s.data = s := rfl

/-! ## Round-trip: `parseVersion` is a left inverse of `formatVersion` -/

theorem formatTwoDigits_data (n : Nat) (h : n < 100) :
    (formatTwoDigits n).data =
      [Char.ofNat (48 + n / 10), Char.ofNat (48 + n % 10)] := by
  revert h
  revert n
  decide

theorem formatTwoDigits_all_digits (n : Nat) (h : n < 100) :
    (formatTwoDigits n).data.all Char.isDigit = true := by
  revert h
  revert n
  decide

theorem parseDigits_formatTwoDigits (n : Nat) (h : n < 100) :
    parseDigits (formatTwoDigits n).data = some n := by
  revert h
  revert n
  decide

theorem dot_not_mem_formatTwoDigits (n : Nat) (h : n < 100) :
    '.' ∉ (formatTwoDigits n).data := by
  revert h
  revert n
  decide

theorem splitOnChar_of_not_mem (sep : Char) (cs : List Char)
    (h : sep ∉ cs) : splitOnChar sep cs = [cs] := by
  induction cs with
  | nil => rfl
  | cons c cs ih =>
    have hc : ¬(c = sep) := fun hcs => h (hcs ▸ List.mem_cons_self c cs)
    have hrest : sep ∉ cs := fun hm => h (List.mem_cons_of_mem c hm)
    simp only [splitOnChar, if_neg hc, ih hrest]

theorem splitOnChar_append (sep : Char) (a b : List Char) (h : sep ∉ a) :
    splitOnChar sep (a ++ sep :: b) = a :: splitOnChar sep b := by
  induction a with
  | nil => simp [splitOnChar]
  | cons c cs ih =>
    have hc : ¬(c = sep) := fun hcs => h (hcs ▸ List.mem_cons_self c cs)
    have hrest : sep ∉ cs := fun hm => h (List.mem_cons_of_mem c hm)
    have hne : splitOnChar sep (cs ++ sep :: b) = cs :: splitOnChar sep b :=
      ih hrest
    simp only [List.cons_append, splitOnChar, if_neg hc, List.append_eq, hne]

theorem pySplit_formatVersion (x y z : Nat)
    (hx : x < 100) (hy : y < 100) (hz : z < 100) :
    pySplit (formatVersion x y z) '.' =
      [formatTwoDigits x, formatTwoDigits y, formatTwoDigits z] := by
  have hdata : (formatVersion x y z).data =
      (formatTwoDigits x).data ++ '.' ::
        ((formatTwoDigits y).data ++ '.' :: (formatTwoDigits z).data) := by
    simp [formatVersion, data_append, List.append_assoc]
  have hsplit : splitOnChar '.' ((formatVersion x y z).data) =
      [(formatTwoDigits x).data, (formatTwoDigits y).data,
        (formatTwoDigits z).data] := by
    rw [hdata,
      splitOnChar_append '.' _ _ (dot_not_mem_formatTwoDigits x hx),
      splitOnChar_append '.' _ _ (dot_not_mem_formatTwoDigits y hy),
      splitOnChar_of_not_mem '.' _ (dot_not_mem_formatTwoDigits z hz)]
  simp [pySplit, hsplit, mk_data]

theorem parseVersion_formatVersion (x y z : Nat)
    (hx : x < 100) (hy : y < 100) (hz : z < 100) :
    parseVersion (formatVersion x y z) = some (x, y, z) := by
  simp [parseVersion, pySplit_formatVersion x y z hx hy hz,
    parseDigits_formatTwoDigits x hx, parseDigits_formatTwoDigits y hy,
    parseDigits_formatTwoDigits z hz]

theorem isDigit_toNat_bounds (c : Char) (h : c.isDigit = true) :
    48 ≤ c.toNat ∧ c.toNat ≤ 57 := by
  simp [Char.isDigit] at h
  exact ⟨h.1, h.2⟩

theorem ne_dot_of_isDigit (c : Char) (h : c.isDigit = true) : c ≠ '.' := by
  intro he
  rw [he] at h
  exact absurd h (by decide)

theorem parseDigits_pair (a b : Char)
    (ha : a.isDigit = true) (hb : b.isDigit = true) :
    parseDigits [a, b] = some ((a.toNat - 48) * 10 + (b.toNat - 48)) ∧
      (a.toNat - 48) * 10 + (b.toNat - 48) ≤ 99 := by
  constructor
  · simp [parseDigits, ha, hb, List.foldl]
  · obtain ⟨ha1, ha2⟩ := isDigit_toNat_bounds a ha
    obtain ⟨hb1, hb2⟩ := isDigit_toNat_bounds b hb
    omega

/-! ## Claim theorems: version increment -/

/-- C1: for every valid version (fields in [0,99]) with exactly one field
selected, `increment_version` follows the reset-lower-fields rule with
modulo-100 overflow: a major increment yields `((major+1) % 100, 0, 0)`, a
minor increment yields `(major, (minor+1) % 100, 0)`, and a patch increment
yields `(major, minor, (patch+1) % 100)`; higher-order fields are never
changed by a lower-order increment. -/
theorem increment_single_field (x y z : Nat)
    (hx : x < 100) (hy : y < 100) (hz : z < 100) :
    increment_version (formatVersion x y z) true false false =
      some (formatVersion ((x + 1) % 100) 0 0, ["major"]) ∧
    increment_version (formatVersion x y z) false true false =
      some (formatVersion x ((y + 1) % 100) 0, ["minor"]) ∧
    increment_version (formatVersion x y z) false false true =
      some (formatVersion x y ((z + 1) % 100), ["patch"]) := by
  refine ⟨?_, ?_, ?_⟩ <;>
    simp [increment_version, parseVersion_formatVersion x y z hx hy hz]

theorem increment_single_field_witness :
    increment_version (formatVersion 1 5 9) true false false =
      some (formatVersion ((1 + 1) % 100) 0 0, ["major"]) :=
  (increment_single_field 1 5 9 (by decide) (by decide) (by decide)).1

/-- C10: when major, minor, and patch increments are all requested in one
call on a valid version, the increments cascade in order major, minor,
patch: the result is `((major+1) % 100, 1, 1)` and all three fields are
reported as incremented. -/
theorem increment_cascade (x y z : Nat)
    (hx : x < 100) (hy : y < 100) (hz : z < 100) :
    increment_version (formatVersion x y z) true true true =
      some (formatVersion ((x + 1) % 100) 1 1,
        ["major", "minor", "patch"]) := by
  simp [increment_version, parseVersion_formatVersion x y z hx hy hz]

theorem increment_cascade_witness :
    increment_version (formatVersion 1 5 9) true true true =
      some (formatVersion ((1 + 1) % 100) 1 1, ["major", "minor", "patch"]) :=
  increment_cascade 1 5 9 (by decide) (by decide) (by decide)

/-- C5: on every valid version (fields in [0,99]) the parse/format pair is a
round trip: parsing the zero-padded serialized form yields the same triple
back, and re-formatting the parsed triple yields the identical string. -/
theorem version_roundtrip (x y z : Nat)
    (hx : x < 100) (hy : y < 100) (hz : z < 100) :
    parseVersion (formatVersion x y z) = some (x, y, z) ∧
    (parseVersion (formatVersion x y z)).elim ""
        (fun t => formatVersion t.1 t.2.1 t.2.2) =
      formatVersion x y z := by
  refine ⟨parseVersion_formatVersion x y z hx hy hz, ?_⟩
  rw [parseVersion_formatVersion x y z hx hy hz]
  rfl

theorem version_roundtrip_witness :
    parseVersion (formatVersion 12 34 56) = some (12, 34, 56) :=
  (version_roundtrip 12 34 56 (by decide) (by decide) (by decide)).1

/-! ## Structure of pattern-matching strings -/

theorem strict_shape (s : String) (h : strictTripletForm s = true) :
    ∃ c0 c1 c3 c4 c6 c7 : Char,
      s.data = [c0, c1, '.', c3, c4, '.', c6, c7] ∧
      c0.isDigit = true ∧ c1.isDigit = true ∧ c3.isDigit = true ∧
      c4.isDigit = true ∧ c6.isDigit = true ∧ c7.isDigit = true := by
  unfold strictTripletForm tripletChars at h
  rcases hs : s.data with _ | ⟨c0, _ | ⟨c1, _ | ⟨c2, _ | ⟨c3, _ | ⟨c4, _ |
    ⟨c5, _ | ⟨c6, _ | ⟨c7, _ | ⟨c8, rest⟩⟩⟩⟩⟩⟩⟩⟩⟩ <;>
    rw [hs] at h <;> simp at h
  obtain ⟨⟨⟨⟨⟨⟨⟨h0, h1⟩, h2⟩, h3⟩, h4⟩, h5⟩, h6⟩, h7⟩ := h
  exact ⟨c0, c1, c3, c4, c6, c7, by rw [h2, h5], h0, h1, h3, h4, h6, h7⟩

theorem strict_of_shape (s : String) (c0 c1 c3 c4 c6 c7 : Char)
    (hs : s.data = [c0, c1, '.', c3, c4, '.', c6, c7])
    (h0 : c0.isDigit = true) (h1 : c1.isDigit = true)
    (h3 : c3.isDigit = true) (h4 : c4.isDigit = true)
    (h6 : c6.isDigit = true) (h7 : c7.isDigit = true) :
    strictTripletForm s = true := by
  unfold strictTripletForm tripletChars
  rw [hs]
  simp [h0, h1, h3, h4, h6, h7]

theorem pattern_shape (s : String) (h : matchesVersionPattern s = true) :
    ∃ c0 c1 c3 c4 c6 c7 : Char,
      (s.data = [c0, c1, '.', c3, c4, '.', c6, c7] ∨
        s.data = [c0, c1, '.', c3, c4, '.', c6, c7, '\n']) ∧
      c0.isDigit = true ∧ c1.isDigit = true ∧ c3.isDigit = true ∧
      c4.isDigit = true ∧ c6.isDigit = true ∧ c7.isDigit = true := by
  unfold matchesVersionPattern tripletChars at h
  rcases hs : s.data with _ | ⟨c0, _ | ⟨c1, _ | ⟨c2, _ | ⟨c3, _ | ⟨c4, _ |
    ⟨c5, _ | ⟨c6, _ | ⟨c7, _ | ⟨c8, _ | ⟨c9, rest⟩⟩⟩⟩⟩⟩⟩⟩⟩⟩ <;>
    rw [hs] at h <;> simp at h
  · obtain ⟨⟨⟨⟨⟨⟨⟨h0, h1⟩, h2⟩, h3⟩, h4⟩, h5⟩, h6⟩, h7⟩ := h
    exact ⟨c0, c1, c3, c4, c6, c7, Or.inl (by rw [h2, h5]),
      h0, h1, h3, h4, h6, h7⟩
  · obtain ⟨⟨⟨⟨⟨⟨⟨⟨h0, h1⟩, h2⟩, h3⟩, h4⟩, h5⟩, h6⟩, h7⟩, h8⟩ := h
    exact ⟨c0, c1, c3, c4, c6, c7, Or.inr (by rw [h2, h5, h8]),
      h0, h1, h3, h4, h6, h7⟩

theorem not_mem_pair_of_digits (c0 c1 : Char)
    (h0 : c0.isDigit = true) (h1 : c1.isDigit = true) :
    ('.' : Char) ∉ [c0, c1] := by
  intro hm
  simp only [List.mem_cons, List.not_mem_nil, or_false] at hm
  rcases hm with h' | h'
  · exact ne_dot_of_isDigit c0 h0 h'.symm
  · exact ne_dot_of_isDigit c1 h1 h'.symm

theorem parseVersion_bounds (s : String)
    (h : matchesVersionPattern s = true) (a b c : Nat)
    (hp : parseVersion s = some (a, b, c)) :
    a ≤ 99 ∧ b ≤ 99 ∧ c ≤ 99 := by
  obtain ⟨c0, c1, c3, c4, c6, c7, hs, h0, h1, h3, h4, h6, h7⟩ :=
    pattern_shape s h
  obtain ⟨hab, hable⟩ := parseDigits_pair c0 c1 h0 h1
  obtain ⟨hcd, hcdle⟩ := parseDigits_pair c3 c4 h3 h4
  rcases hs with hs | hs
  · obtain ⟨hef, hefle⟩ := parseDigits_pair c6 c7 h6 h7
    have hsplit : splitOnChar '.' s.data =
        [[c0, c1], [c3, c4], [c6, c7]] := by
      rw [hs,
        show [c0, c1, '.', c3, c4, '.', c6, c7] =
          [c0, c1] ++ '.' :: ([c3, c4] ++ '.' :: [c6, c7]) from rfl,
        splitOnChar_append '.' _ _ (not_mem_pair_of_digits c0 c1 h0 h1),
        splitOnChar_append '.' _ _ (not_mem_pair_of_digits c3 c4 h3 h4),
        splitOnChar_of_not_mem '.' _ (not_mem_pair_of_digits c6 c7 h6 h7)]
    have hpv : parseVersion s =
        some ((c0.toNat - 48) * 10 + (c1.toNat - 48),
          (c3.toNat - 48) * 10 + (c4.toNat - 48),
          (c6.toNat - 48) * 10 + (c7.toNat - 48)) := by
      simp only [parseVersion, pySplit, hsplit, List.map]
      rw [hab, hcd, hef]
    rw [hpv] at hp
    simp only [Option.some.injEq, Prod.mk.injEq] at hp
    obtain ⟨rfl, rfl, rfl⟩ := hp
    exact ⟨hable, hcdle, hefle⟩
  · have hnc : ('.' : Char) ∉ [c6, c7, '\n'] := by
      intro hm
      simp only [List.mem_cons, List.not_mem_nil, or_false] at hm
      rcases hm with h' | h' | h'
      · exact ne_dot_of_isDigit c6 h6 h'.symm
      · exact ne_dot_of_isDigit c7 h7 h'.symm
      · exact absurd h' (by decide)
    have hsplit : splitOnChar '.' s.data =
        [[c0, c1], [c3, c4], [c6, c7, '\n']] := by
      rw [hs,
        show [c0, c1, '.', c3, c4, '.', c6, c7, '\n'] =
          [c0, c1] ++ '.' :: ([c3, c4] ++ '.' :: [c6, c7, '\n']) from rfl,
        splitOnChar_append '.' _ _ (not_mem_pair_of_digits c0 c1 h0 h1),
        splitOnChar_append '.' _ _ (not_mem_pair_of_digits c3 c4 h3 h4),
        splitOnChar_of_not_mem '.' _ hnc]
    have hef : parseDigits [c6, c7, '\n'] = none := by
      simp [parseDigits, show ('\n').isDigit = false from by decide]
    have hpv : parseVersion s = none := by
      simp only [parseVersion, pySplit, hsplit, List.map]
      rw [hab, hcd, hef]
    rw [hpv] at hp
    exact absurd hp (by simp)

theorem star_not_mem_of_pattern (s : String)
    (h : matchesVersionPattern s = true) : '*' ∉ s.data := by
  obtain ⟨c0, c1, c3, c4, c6, c7, hs, h0, h1, h3, h4, h6, h7⟩ :=
    pattern_shape s h
  rcases hs with hs | hs <;> rw [hs] <;> intro hm <;>
    simp only [List.mem_cons, List.not_mem_nil, or_false] at hm
  · rcases hm with h' | h' | h' | h' | h' | h' | h' | h'
    · exact absurd h0 (by rw [← h']; decide)
    · exact absurd h1 (by rw [← h']; decide)
    · exact absurd h' (by decide)
    · exact absurd h3 (by rw [← h']; decide)
    · exact absurd h4 (by rw [← h']; decide)
    · exact absurd h' (by decide)
    · exact absurd h6 (by rw [← h']; decide)
    · exact absurd h7 (by rw [← h']; decide)
  · rcases hm with h' | h' | h' | h' | h' | h' | h' | h' | h'
    · exact absurd h0 (by rw [← h']; decide)
    · exact absurd h1 (by rw [← h']; decide)
    · exact absurd h' (by decide)
    · exact absurd h3 (by rw [← h']; decide)
    · exact absurd h4 (by rw [← h']; decide)
    · exact absurd h' (by decide)
    · exact absurd h6 (by rw [← h']; decide)
    · exact absurd h7 (by rw [← h']; decide)
    · exact absurd h' (by decide)

/-! ## Claim theorems: version store read/write -/

/-- C3: `get_current_version` never fails.  With the file absent it writes
and returns the default `"00.00.01"`; with the file present but failing the
two-digit-triplet pattern it overwrites with the default, warns, and returns
the default; with matching content it returns that content and leaves the
file unchanged.  (The default itself matches the pattern.) -/
theorem read_self_heals :
    get_current_version none =
      ⟨DEFAULT_VERSION, DEFAULT_VERSION, false⟩ ∧
    (∀ content : String, matchesVersionPattern (pyStrip content) = false →
      get_current_version (some content) =
        ⟨DEFAULT_VERSION, DEFAULT_VERSION, true⟩) ∧
    (∀ content : String, matchesVersionPattern (pyStrip content) = true →
      get_current_version (some content) =
        ⟨pyStrip content, content, false⟩) ∧
    matchesVersionPattern DEFAULT_VERSION = true := by
  refine ⟨rfl, ?_, ?_, by decide⟩
  · intro content hbad
    simp [get_current_version, hbad]
  · intro content hgood
    simp [get_current_version, hgood]

theorem read_self_heals_witness :
    get_current_version (some "1.2.3") =
      ⟨DEFAULT_VERSION, DEFAULT_VERSION, true⟩ ∧
    get_current_version (some "01.02.03") =
      ⟨"01.02.03", "01.02.03", false⟩ := by
  refine ⟨read_self_heals.2.1 "1.2.3" (by decide), ?_⟩
  rw [read_self_heals.2.2.1 "01.02.03" (by decide)]
  decide

/-- C4 counterexample to the claim as stated: `"01.02.03\n"` is not of the
two-digit-triplet form `NN.NN.NN`, yet `set_version` accepts it — Python's
`$` anchor also matches just before a string-final newline, so
`re.match` at line 77 succeeds and the call overwrites the file with the
string (trailing newline included) and exits 0. -/
theorem set_version_trailing_newline :
    strictTripletForm "01.02.03\n" = false ∧
    set_version "01.02.03\n" (some "00.00.05") =
      ⟨true, some "01.02.03\n"⟩ := by
  refine ⟨?_, ?_⟩ <;> decide

/-- C4 (corrected): `set_version` validates its argument against
`re.match(r'^\d{2}\.\d{2}\.\d{2}$')`, which accepts exactly the strings of
the two-digit-triplet form `NN.NN.NN` plus those same strings with a single
trailing newline.  Every string outside these two forms makes the call exit
unsuccessfully before the write, leaving the file untouched; every accepted
string overwrites the file's entire content with exactly that string
(trailing newline included, when present).  An accepted string can only
encode fields in [0,99]: whatever triple it parses to is bounded by 99, so
a version with a field outside [0,99] necessarily fails validation. -/
theorem set_version_validates (version : String) (file : Option String) :
    (matchesVersionPattern version = false →
      set_version version file = ⟨false, file⟩) ∧
    (matchesVersionPattern version = true →
      set_version version file = ⟨true, some version⟩) ∧
    (matchesVersionPattern version = true ↔
      (strictTripletForm version = true ∨
        ∃ t, strictTripletForm t = true ∧ version = t ++ "\n")) ∧
    (∀ a b c : Nat, matchesVersionPattern version = true →
      parseVersion version = some (a, b, c) →
      a ≤ 99 ∧ b ≤ 99 ∧ c ≤ 99) := by
  refine ⟨?_, ?_, ⟨?_, ?_⟩, ?_⟩
  · intro hbad
    simp [set_version, hbad]
  · intro hgood
    simp [set_version, hgood]
  · intro h
    obtain ⟨c0, c1, c3, c4, c6, c7, hs, h0, h1, h3, h4, h6, h7⟩ :=
      pattern_shape version h
    rcases hs with hs | hs
    · exact Or.inl
        (strict_of_shape version c0 c1 c3 c4 c6 c7 hs h0 h1 h3 h4 h6 h7)
    · refine Or.inr ⟨String.mk [c0, c1, '.', c3, c4, '.', c6, c7],
        strict_of_shape _ c0 c1 c3 c4 c6 c7 rfl h0 h1 h3 h4 h6 h7, ?_⟩
      apply String.ext
      rw [data_append, hs]
      rfl
  · intro h
    rcases h with hstrict | ⟨t, ht, rfl⟩
    · obtain ⟨c0, c1, c3, c4, c6, c7, hs, h0, h1, h3, h4, h6, h7⟩ :=
        strict_shape version hstrict
      unfold matchesVersionPattern tripletChars
      rw [hs]
      simp [h0, h1, h3, h4, h6, h7]
    · obtain ⟨c0, c1, c3, c4, c6, c7, hs, h0, h1, h3, h4, h6, h7⟩ :=
        strict_shape t ht
      unfold matchesVersionPattern tripletChars
      rw [data_append, hs]
      simp [h0, h1, h3, h4, h6, h7]
  · intro a b c hgood hparse
    exact parseVersion_bounds version hgood a b c hparse

theorem set_version_validates_witness :
    set_version "1.2.3" (some "00.00.05") = ⟨false, some "00.00.05"⟩ ∧
    set_version "01.02.03" (some "00.00.05") = ⟨true, some "01.02.03"⟩ :=
  ⟨(set_version_validates "1.2.3" (some "00.00.05")).1 (by decide),
    (set_version_validates "01.02.03" (some "00.00.05")).2.1 (by decide)⟩

/-- C9: with none of the increment flags set and a version file holding
valid content, the run leaves the version file exactly as it was, applies no
increment, and the commit-message label is the plain version with no
asterisk marker anywhere. -/
theorem no_flags_preserves_version (content : String)
    (h : matchesVersionPattern (pyStrip content) = true) :
    main_version_flow false false false (some content) =
      some (content, pyStrip content) ∧
    '*' ∉ (pyStrip content).data := by
  constructor
  · simp [main_version_flow, get_current_version, h,
      format_version_with_stars]
  · exact star_not_mem_of_pattern _ h

theorem no_flags_preserves_version_witness :
    main_version_flow false false false (some "01.02.03") =
      some ("01.02.03", "01.02.03") := by
  have h := (no_flags_preserves_version "01.02.03" (by decide)).1
  rw [h]
  decide

/-- C8: the annotated label marks each incremented field with a leading
asterisk and leaves non-incremented fields bare: a major increment on
`"01.05.09"` yields version `"02.00.00"` with label `"*02.00.00"`, and for
any valid version each single-field increment list stars exactly that field;
with no field incremented the label is the plain version string. -/
theorem annotated_label_stars (x y z : Nat)
    (hx : x < 100) (hy : y < 100) (hz : z < 100) :
    increment_version "01.05.09" true false false =
      some ("02.00.00", ["major"]) ∧
    format_version_with_stars "02.00.00" ["major"] = "*02.00.00" ∧
    (∀ v : String, format_version_with_stars v [] = v) ∧
    format_version_with_stars (formatVersion x y z) ["major"] =
      "*" ++ formatTwoDigits x ++ "." ++ formatTwoDigits y ++ "." ++
        formatTwoDigits z ∧
    format_version_with_stars (formatVersion x y z) ["minor"] =
      formatTwoDigits x ++ "." ++ "*" ++ formatTwoDigits y ++ "." ++
        formatTwoDigits z ∧
    format_version_with_stars (formatVersion x y z) ["patch"] =
      formatTwoDigits x ++ "." ++ formatTwoDigits y ++ "." ++ "*" ++
        formatTwoDigits z := by
  have hp := pySplit_formatVersion x y z hx hy hz
  refine ⟨by decide, by decide, fun v => rfl, ?_, ?_, ?_⟩ <;>
  · apply String.ext
    simp [format_version_with_stars, hp, data_append, List.append_assoc]

theorem annotated_label_stars_witness :
    format_version_with_stars (formatVersion 1 5 9) ["minor"] =
      formatTwoDigits 1 ++ "." ++ "*" ++ formatTwoDigits 5 ++ "." ++
        formatTwoDigits 9 :=
  (annotated_label_stars 1 5 9 (by decide) (by decide)
    (by decide)).2.2.2.2.1

/-! ## Selection filter -/

/-- The exclusion set a raw input parses to (empty when the comprehension
would raise, which never happens). -/
def exclusionSet (raw : String) : List Nat :=
  (parse_exclude_indices (pyStrip raw)).getD []

theorem parseDigits_isSome_of_isDigitString (t : String)
    (h : isDigitString t = true) : (parseDigits t.data).isSome = true := by
  unfold isDigitString at h
  simp only [Bool.and_eq_true, Bool.not_eq_true'] at h
  obtain ⟨h1, h2⟩ := h
  simp [parseDigits, h1, h2]

theorem parse_exclude_indices_total (s : String) :
    ∃ l, parse_exclude_indices s = some l := by
  unfold parse_exclude_indices
  rw [if_pos]
  · exact ⟨_, rfl⟩
  · rw [List.all_eq_true]
    intro t ht
    exact parseDigits_isSome_of_isDigitString t (List.of_mem_filter ht)

theorem filterMap_enumerateFrom (ex : List Nat)
    (xs : List ChangeRecord) (n : Nat) :
    (enumerateFrom n xs).filterMap
        (fun p => if p.1 ∈ ex then none else some p.2.filename) =
      (retainNotExcluded n ex xs).map (fun f => f.filename) := by
  induction xs generalizing n with
  | nil => rfl
  | cons x xs ih =>
    by_cases hm : n ∈ ex <;>
      simp [enumerateFrom, retainNotExcluded, List.filterMap_cons, hm, ih]

theorem retainNotExcluded_congr (xs : List α) (n : Nat) (ex1 ex2 : List Nat)
    (h : ∀ i, n ≤ i → i < n + xs.length → (i ∈ ex1 ↔ i ∈ ex2)) :
    retainNotExcluded n ex1 xs = retainNotExcluded n ex2 xs := by
  induction xs generalizing n with
  | nil => rfl
  | cons x xs ih =>
    have hn : n ∈ ex1 ↔ n ∈ ex2 :=
      h n le_rfl (by simp only [List.length_cons]; omega)
    have ht : retainNotExcluded (n + 1) ex1 xs =
        retainNotExcluded (n + 1) ex2 xs :=
      ih (n + 1) fun i h1 h2 =>
        h i (by omega) (by simp only [List.length_cons] at *; omega)
    by_cases hm : n ∈ ex1
    · simp only [retainNotExcluded, if_pos hm, if_pos (hn.mp hm), ht]
    · simp only [retainNotExcluded, if_neg hm,
        if_neg (fun hc => hm (hn.mpr hc)), ht]

theorem retainNotExcluded_nil_ex (xs : List α) (n : Nat) :
    retainNotExcluded n [] xs = xs := by
  induction xs generalizing n with
  | nil => rfl
  | cons x xs ih => simp [retainNotExcluded, ih]

/-- C2: the selection filter keeps exactly the records whose 1-based display
position is not among the parsed integer tokens, in their original order;
empty input keeps everything, input `"2"` on a three-record list keeps the
first and third records, and tokens outside `[1, N]` exclude nothing. -/
theorem apply_exclusions_spec (records : List ChangeRecord) (raw : String) :
    (apply_exclusions records raw).1 =
      (retainNotExcluded 1 (exclusionSet raw) records).map
        (fun f => f.filename) ∧
    (apply_exclusions records "").1 =
      records.map (fun f => f.filename) ∧
    (∀ r1 r2 r3 : ChangeRecord,
      (apply_exclusions [r1, r2, r3] "2").1 =
        [r1.filename, r3.filename]) ∧
    ((∀ i ∈ exclusionSet raw, i = 0 ∨ records.length < i) →
      (apply_exclusions records raw).1 =
        records.map (fun f => f.filename)) ∧
    (apply_exclusions records raw).1 =
      (retainNotExcluded 1 ((exclusionSet raw).filter
          (fun i => decide (1 ≤ i) && decide (i ≤ records.length)))
        records).map (fun f => f.filename) := by
  have hmain : (apply_exclusions records raw).1 =
      (retainNotExcluded 1 (exclusionSet raw) records).map
        (fun f => f.filename) := by
    unfold apply_exclusions exclusionSet
    by_cases hraw : pyStrip raw = ""
    · rw [hraw]
      simp [retainNotExcluded_nil_ex,
        show parse_exclude_indices "" = some [] from rfl]
    · obtain ⟨l, hl⟩ := parse_exclude_indices_total (pyStrip raw)
      simp only [if_pos (show pyStrip raw ≠ "" from hraw), hl,
        Option.getD_some]
      exact filterMap_enumerateFrom l records 1
  refine ⟨hmain, ?_, ?_, ?_, ?_⟩
  · rfl
  · intro r1 r2 r3
    rfl
  · intro hout
    rw [hmain,
      retainNotExcluded_congr records 1 (exclusionSet raw) [] ?_,
      retainNotExcluded_nil_ex]
    intro i h1 h2
    simp only [List.not_mem_nil, iff_false]
    intro hmem
    rcases hout i hmem with h0 | hN
    · omega
    · omega
  · rw [hmain, retainNotExcluded_congr records 1 (exclusionSet raw) _ ?_]
    intro i h1 h2
    simp only [List.mem_filter, Bool.and_eq_true, decide_eq_true_eq]
    constructor
    · intro hi
      exact ⟨hi, by omega, by omega⟩
    · intro hi
      exact hi.1

theorem apply_exclusions_spec_witness :
    (apply_exclusions [⟨"a.txt", UPDATE_LABEL, "M"⟩] "7").1 = ["a.txt"] := by
  have h := (apply_exclusions_spec [⟨"a.txt", UPDATE_LABEL, "M"⟩] "7").2.2.2.1
    (by decide)
  rw [h]
  rfl

/-- C7 (corrected): with an exclusion input consisting only of non-numeric
tokens, the filter recovers locally and keeps every record — but no warning
is printed: the `ValueError` fallback at line 224 of `sgit.py` cannot
trigger, because every token reaching `int()` was pre-filtered by
`isdigit`. -/
theorem malformed_exclusions_lenient (records : List ChangeRecord)
    (raw : String) (hne : pyStrip raw ≠ "")
    (h : ∀ t ∈ (pySplit (pyStrip raw) ',').map pyStrip,
      isDigitString t = false) :
    apply_exclusions records raw =
      (records.map (fun f => f.filename), false) := by
  have hguard : ((pySplit (pyStrip raw) ',').map pyStrip).filter
      isDigitString = [] := by
    rw [List.filter_eq_nil_iff]
    intro t ht
    rw [h t ht]
    decide
  have hparse : parse_exclude_indices (pyStrip raw) = some [] := by
    unfold parse_exclude_indices
    rw [hguard]
    rfl
  unfold apply_exclusions
  rw [if_pos hne, hparse]
  have hfm : List.filterMap
      (fun p => if p.1 ∈ ([] : List Nat) then none else some p.2.filename)
      (enumerateFrom 1 records) = records.map (fun f => f.filename) := by
    rw [filterMap_enumerateFrom [] records 1, retainNotExcluded_nil_ex]
  exact congrArg (fun l => (l, false)) hfm

/-- C7 counterexample to the claim as stated: on input `"abc"` all records
are retained, but the warning flag is `false` — contrary to the claim that
a warning is emitted. -/
theorem malformed_exclusions_no_warning :
    apply_exclusions [⟨"a.txt", UPDATE_LABEL, "M"⟩] "abc" =
      (["a.txt"], false) ∧
    ¬((apply_exclusions [⟨"a.txt", UPDATE_LABEL, "M"⟩] "abc").2 = true) := by
  refine ⟨?_, ?_⟩ <;> decide

theorem malformed_exclusions_lenient_witness :
    apply_exclusions [⟨"b.txt", INSERT_LABEL, "??"⟩] "xy, zw" =
      (["b.txt"], false) :=
  malformed_exclusions_lenient [⟨"b.txt", INSERT_LABEL, "??"⟩] "xy, zw"
    (by decide) (by decide)

/-! ## Change lister -/

/-- C6 counterexample to the claim as stated: classification is not a
function of the status code's first character, and there is no separate
"added" class.  The lines `"M  a.txt"` and `"MM b.txt"` have the same first
status character `M` yet classify differently (`UPDATE` versus `Unknown`),
and the added-file code `A` classifies as `Unknown`. -/
theorem classification_not_by_first_char :
    (parse_status_line "M  a.txt").status_code.data.head? = some 'M' ∧
    (parse_status_line "MM b.txt").status_code.data.head? = some 'M' ∧
    (parse_status_line "M  a.txt").status_text = UPDATE_LABEL ∧
    (parse_status_line "MM b.txt").status_text = "Unknown" ∧
    UPDATE_LABEL ≠ "Unknown" ∧
    (parse_status_line "A  new.txt").status_text = "Unknown" := by
  refine ⟨?_, ?_, ?_, ?_, ?_, ?_⟩ <;> decide

/-- C6 (corrected): each status line is split at the fixed two-character
status-code width with both parts stripped, and the record is classified by
the entire stripped code — `"??"` to untracked/INSERT, `"D"` to
deleted/DELETE, `"M"` to modified/UPDATE, and every other code to Unknown
(there are no separate added/renamed/copied/unmerged classes).  The status
output `"?? foo.txt\nM  bar.txt\n"` yields exactly two records, `foo.txt`
untracked and `bar.txt` modified. -/
theorem change_lister_classification :
    get_changed_files "?? foo.txt\nM  bar.txt\n" =
      some [⟨"foo.txt", INSERT_LABEL, "??"⟩,
        ⟨"bar.txt", UPDATE_LABEL, "M"⟩] ∧
    (∀ line : String,
      (parse_status_line line).status_code =
        String.mk (pyStripL (line.data.take 2)) ∧
      (parse_status_line line).filename =
        String.mk (pyStripL (line.data.drop 2)) ∧
      (parse_status_line line).status_text =
        classify (parse_status_line line).status_code) ∧
    (∀ code : String,
      (classify code = INSERT_LABEL ↔ code = "??") ∧
      (classify code = DELETE_LABEL ↔ code = "D") ∧
      (classify code = UPDATE_LABEL ↔ code = "M") ∧
      (code ≠ "??" → code ≠ "D" → code ≠ "M" → classify code = "Unknown")) := by
  refine ⟨by decide, fun line => ⟨rfl, rfl, rfl⟩, ?_⟩
  intro code
  by_cases h1 : code = "??"
  · subst h1
    refine ⟨?_, ?_, ?_, ?_⟩ <;> simp [classify] <;> decide
  · by_cases h2 : code = "D"
    · subst h2
      refine ⟨?_, ?_, ?_, ?_⟩ <;> simp [classify] <;> decide
    · by_cases h3 : code = "M"
      · subst h3
        refine ⟨?_, ?_, ?_, ?_⟩ <;> simp [classify] <;> decide
      · refine ⟨?_, ?_, ?_, fun _ _ _ => ?_⟩ <;>
          simp [classify, h1, h2, h3] <;> decide

theorem change_lister_classification_witness :
    classify "R " = "Unknown" :=
  (change_lister_classification.2.2 "R ").2.2.2 (by decide) (by decide)
    (by decide)

end SGit
